import Mathlib

/-!
A shallow embedding of `src/vtt.rs` from the `subtp` repository: the WebVTT
data model and its renderer (the `Display` implementations), the
timestamp/duration conversions, the derived lexicographic orderings, and the
draining iterator.

Modelling conventions:
* Rust `String`/`&str` is Lean `String`; `Vec<T>` is `List T`; `Option<T>` is
  `Option T`; sequential `write!` calls are string concatenation.
* Machine integers (`u8`, `u16`, `u32`, `u64`, `i32`) are `Nat`/`Int`;
  wherever the source performs an `as` cast that can actually truncate or
  saturate, the model applies the corresponding `% 2^w` or clamping
  explicitly.
* Rust `f32` (the `Percentage.value` field) is modelled as `Rat`, i.e. the
  float is identified with the exact rational it denotes; `f32::fract`,
  truncation casts and decimal formatting are modelled by exact rational
  arithmetic on numerator and denominator.  (NaN and the infinities are
  outside this model.)
* `std::time::Duration` is modelled as a pair of a second count and a
  sub-second nanosecond count; `Duration::new` normalizes nanoseconds into
  seconds exactly as in Rust.
-/

/-- Zero-padding of a numeral, as in Rust's `{:02}` / `{:03}` format
specifiers: pad on the left with `'0'` up to the minimum width; longer
strings are emitted unchanged. -/
def padZero (w : Nat) (s : String) : String :=
  String.mk (List.replicate (w - s.length) '0') ++ s

/-- Decimal rendering of an `i32` value, as Rust's `{}` format. -/
def intStr (i : Int) : String :=
  if i < 0 then "-" ++ Nat.repr i.natAbs else Nat.repr i.natAbs

/-- `Vec<String>::join(sep)` from Rust: interpose `sep` between the
elements, no trailing separator, empty string for the empty list. -/
def joinSep (sep : String) : List String → String
  | [] => ""
  | [x] => x
  | x :: y :: xs => x ++ sep ++ joinSep sep (y :: xs)

/-- Truncation of a rational toward zero, the semantics of Rust's
`f32::trunc` and of the float-to-integer part of an `as` cast. -/
def ratTrunc (q : Rat) : Int :=
  q.num.tdiv q.den

/-- The fractional part `q - q.trunc` (Rust `f32::fract`), computed on the
numerator and denominator so that it evaluates by kernel reduction:
`q - trunc q = (q.num - tdiv q.num q.den * q.den) / q.den
            = tmod q.num q.den / q.den`. -/
def ratFract (q : Rat) : Rat :=
  mkRat (q.num.tmod q.den) q.den

/-- Rust's saturating `as i32` cast applied to an `f32`, on the rational
model: truncate toward zero, then clamp into the `i32` range. -/
def i32Sat (q : Rat) : Int :=
  if ratTrunc q < -2147483648 then -2147483648
  else if ratTrunc q > 2147483647 then 2147483647
  else ratTrunc q

/-- The digits of the decimal expansion of `n / d` (for `0 ≤ n < d`),
produced most significant first, stopping at a zero remainder.  The fuel
bounds the number of digits; 200 exceeds the longest terminating expansion
of any `f32` value, so on the rational image of `f32` the fuel is never
exhausted. -/
def decDigits : Nat → Nat → Nat → String
  | 0, _, _ => ""
  | fuel + 1, n, d =>
    if n = 0 then "" else Nat.repr (n * 10 / d) ++ decDigits fuel (n * 10 % d) d

/-- Decimal rendering of a non-integral rational: sign, integer part,
`'.'`, then the digits of the exact terminating expansion.  Rust's `{}`
display of an `f32` prints the shortest decimal that round-trips through
the binary float, which coincides with this exact expansion only when the
float's value is itself that short decimal (e.g. 50.5 or 150.5, the only
points at which this file evaluates the function); for other floats Rust
prints fewer digits than the expansion of the denoted rational. -/
def ratDecString (q : Rat) : String :=
  (if q.num < 0 then "-" else "")
    ++ Nat.repr (q.num.natAbs / q.den) ++ "."
    ++ decDigits 200 (q.num.natAbs % q.den) q.den

/-- `Percentage` from `vtt.rs`: a floating value conceptually in
`[0, 100]`, here the exact rational denoted by the `f32` field. -/
structure Percentage where
  value : Rat
deriving DecidableEq

/-- `impl Display for Percentage`: integral form when `value.fract() == 0.0`
(via the `as i32` cast), otherwise the decimal form; a `%` sign follows
either way.  The non-integral branch inherits the scope caveat of
`ratDecString`: it matches the Rust output only at values whose shortest
round-tripping `f32` decimal equals the exact expansion. -/
def Percentage.render (p : Percentage) : String :=
  if ratFract p.value = 0 then intStr (i32Sat p.value) ++ "%"
  else ratDecString p.value ++ "%"

/-- `Anchor` from `vtt.rs`: a pair of percentages. -/
structure Anchor where
  x : Percentage
  y : Percentage
deriving DecidableEq

/-- `impl Display for Anchor`: `x`, a comma, `y`. -/
def Anchor.render (a : Anchor) : String :=
  a.x.render ++ "," ++ a.y.render

/-- `Scroll` from `vtt.rs`. -/
inductive Scroll where
  | Up
deriving DecidableEq

/-- `impl Display for Scroll`. -/
def Scroll.render : Scroll → String
  | .Up => "up"

/-- `Vertical` from `vtt.rs`. -/
inductive Vertical where
  | Rl
  | Lr
deriving DecidableEq

/-- `impl Display for Vertical`. -/
def Vertical.render : Vertical → String
  | .Rl => "rl"
  | .Lr => "lr"

/-- `LineAlignment` from `vtt.rs`. -/
inductive LineAlignment where
  | Start
  | Center
  | End
deriving DecidableEq

/-- `impl Display for LineAlignment`. -/
def LineAlignment.render : LineAlignment → String
  | .Start => "start"
  | .Center => "center"
  | .End => "end"

/-- `Line` from `vtt.rs`: a percentage or an `i32` line number, each with an
optional alignment. -/
inductive Line where
  | Percentage (p : Percentage) (a : Option LineAlignment)
  | LineNumber (n : Int) (a : Option LineAlignment)
deriving DecidableEq

/-- `impl Display for Line`: the value, then `,alignment` when an alignment
is present. -/
def Line.render : Line → String
  | .Percentage p (some a) => p.render ++ "," ++ a.render
  | .Percentage p none => p.render
  | .LineNumber n (some a) => intStr n ++ "," ++ a.render
  | .LineNumber n none => intStr n

/-- `PositionAlignment` from `vtt.rs`. -/
inductive PositionAlignment where
  | LineLeft
  | Center
  | LineRight
deriving DecidableEq

/-- `impl Display for PositionAlignment`. -/
def PositionAlignment.render : PositionAlignment → String
  | .LineLeft => "line-left"
  | .Center => "center"
  | .LineRight => "line-right"

/-- `Alignment` from `vtt.rs` (named `VttAlignment` here because Mathlib
already declares a root `Alignment`). -/
inductive VttAlignment where
  | Start
  | Center
  | End
  | Left
  | Right
deriving DecidableEq

/-- `impl Display for Alignment`. -/
def VttAlignment.render : VttAlignment → String
  | .Start => "start"
  | .Center => "center"
  | .End => "end"
  | .Left => "left"
  | .Right => "right"

/-- `Position` from `vtt.rs`: a percentage with an optional alignment. -/
structure Position where
  value : Percentage
  alignment : Option PositionAlignment
deriving DecidableEq

/-- `impl Display for Position`: the value, then `,alignment` when an
alignment is present. -/
def Position.render (p : Position) : String :=
  match p.alignment with
  | some a => p.value.render ++ "," ++ a.render
  | none => p.value.render

/-- `CueSettings` from `vtt.rs`: six independently optional fields. -/
structure CueSettings where
  vertical : Option Vertical
  line : Option Line
  position : Option Position
  size : Option Percentage
  align : Option VttAlignment
  region : Option String
deriving DecidableEq

/-- `impl Display for CueSettings`: push each present field, in declaration
order, onto a vector of `key:value` strings, then join the vector with
single spaces. -/
def CueSettings.render (s : CueSettings) : String :=
  let l : List String := []
  let l := match s.vertical with
    | some v => l ++ ["vertical:" ++ v.render]
    | none => l
  let l := match s.line with
    | some x => l ++ ["line:" ++ x.render]
    | none => l
  let l := match s.position with
    | some x => l ++ ["position:" ++ x.render]
    | none => l
  let l := match s.size with
    | some x => l ++ ["size:" ++ x.render]
    | none => l
  let l := match s.align with
    | some x => l ++ ["align:" ++ x.render]
    | none => l
  let l := match s.region with
    | some x => l ++ ["region:" ++ x]
    | none => l
  joinSep " " l

/-- The present `key:value` fields of a settings value, in the fixed order
vertical, line, position, size, align, region.  This is the specification
side of claim C2, stated independently of the push-then-join loop. -/
def CueSettings.presentFields (s : CueSettings) : List String :=
  (s.vertical.map (fun v => "vertical:" ++ v.render)).toList
    ++ (s.line.map (fun x => "line:" ++ x.render)).toList
    ++ (s.position.map (fun x => "position:" ++ x.render)).toList
    ++ (s.size.map (fun x => "size:" ++ x.render)).toList
    ++ (s.align.map (fun x => "align:" ++ x.render)).toList
    ++ (s.region.map (fun x => "region:" ++ x)).toList

/-- `VttTimestamp` from `vtt.rs`: hours (`u32`), minutes (`u8`), seconds
(`u8`), milliseconds (`u16`), none of them clamped on construction. -/
structure VttTimestamp where
  hours : Nat
  minutes : Nat
  seconds : Nat
  milliseconds : Nat
deriving DecidableEq

/-- `impl Display for VttTimestamp`: the `{:02}:{:02}:{:02}.{:03}` format
string — each field in decimal, zero-padded to a minimum width. -/
def VttTimestamp.render (t : VttTimestamp) : String :=
  padZero 2 (Nat.repr t.hours) ++ ":" ++ padZero 2 (Nat.repr t.minutes)
    ++ ":" ++ padZero 2 (Nat.repr t.seconds)
    ++ "." ++ padZero 3 (Nat.repr t.milliseconds)

/-- The lexicographic order on timestamps produced by Rust's
`derive(PartialOrd, Ord)`: fields are compared in declaration order. -/
def VttTimestamp.lt (a b : VttTimestamp) : Prop :=
  a.hours < b.hours
    ∨ (a.hours = b.hours
        ∧ (a.minutes < b.minutes
            ∨ (a.minutes = b.minutes
                ∧ (a.seconds < b.seconds
                    ∨ (a.seconds = b.seconds
                        ∧ a.milliseconds < b.milliseconds)))))

/-- `std::time::Duration`: whole seconds (`u64`) and a sub-second
nanosecond count kept below `10^9`. -/
structure Duration where
  secs : Nat
  nanos : Nat
deriving DecidableEq

/-- `Duration::new`: carry whole seconds out of the nanosecond argument.
(The `u64` overflow panic of the original is unreachable from every use in
`vtt.rs`, so it is not modelled.) -/
def Duration.new (secs nanos : Nat) : Duration :=
  ⟨secs + nanos / 1000000000, nanos % 1000000000⟩

/-- The lexicographic order on durations produced by Rust's derived `Ord`:
seconds first, then sub-second nanoseconds. -/
def Duration.lt (a b : Duration) : Prop :=
  a.secs < b.secs ∨ (a.secs = b.secs ∧ a.nanos < b.nanos)

/-- `impl From<Duration> for VttTimestamp`: split `as_secs` into hours,
minutes and seconds and take `subsec_millis`; the `as u32` / `as u8` /
`as u16` casts of the source are the explicit `%` reductions. -/
def VttTimestamp.fromDuration (d : Duration) : VttTimestamp :=
  { hours := d.secs / 3600 % 4294967296
    minutes := d.secs % 3600 / 60 % 256
    seconds := d.secs % 60 % 256
    milliseconds := d.nanos / 1000000 % 65536 }

/-- `impl Into<Duration> for VttTimestamp`: total seconds from the three
clock fields, milliseconds scaled to nanoseconds, via `Duration::new`. -/
def VttTimestamp.intoDuration (t : VttTimestamp) : Duration :=
  Duration.new (t.hours * 3600 + t.minutes * 60 + t.seconds)
    (t.milliseconds * 1000000)

/-- `VttTimings` from `vtt.rs`: an ordered start/end pair. -/
structure VttTimings where
  start : VttTimestamp
  «end» : VttTimestamp
deriving DecidableEq

/-- `impl Display for VttTimings`: start, the ` --> ` separator, end. -/
def VttTimings.render (g : VttTimings) : String :=
  g.start.render ++ " --> " ++ g.«end».render

/-- `VttCue` from `vtt.rs`. -/
structure VttCue where
  identifier : Option String
  timings : VttTimings
  settings : Option CueSettings
  payload : List String
deriving DecidableEq

/-- `impl Display for VttCue`: the identifier line when present, the timing
line with a space and the settings when present, then a newline, the
payload joined by newlines, and a final newline. -/
def VttCue.render (c : VttCue) : String :=
  (match c.identifier with
    | some i => i ++ "\n"
    | none => "")
    ++ c.timings.render
    ++ (match c.settings with
      | some s => " " ++ s.render
      | none => "")
    ++ "\n" ++ joinSep "\n" c.payload ++ "\n"

/-- `VttStyle` from `vtt.rs`: one opaque style text blob. -/
structure VttStyle where
  style : String
deriving DecidableEq

/-- `impl Display for VttStyle`. -/
def VttStyle.render (s : VttStyle) : String :=
  "STYLE\n" ++ s.style ++ "\n"

/-- `VttComment` from `vtt.rs`: side or below placement of the text. -/
inductive VttComment where
  | Side (text : String)
  | Below (text : String)
deriving DecidableEq

/-- `impl Display for VttComment`. -/
def VttComment.render : VttComment → String
  | .Side t => "NOTE " ++ t ++ "\n"
  | .Below t => "NOTE\n" ++ t ++ "\n"

/-- `VttRegion` from `vtt.rs`: six independently optional fields. -/
structure VttRegion where
  id : Option String
  width : Option Percentage
  lines : Option Nat
  region_anchor : Option Anchor
  viewport_anchor : Option Anchor
  scroll : Option Scroll
deriving DecidableEq

/-- `impl Display for VttRegion`: the `REGION` line, then one `key:value`
line per present field, in declaration order. -/
def VttRegion.render (r : VttRegion) : String :=
  "REGION\n"
    ++ (match r.id with
      | some i => "id:" ++ i ++ "\n"
      | none => "")
    ++ (match r.width with
      | some w => "width:" ++ w.render ++ "\n"
      | none => "")
    ++ (match r.lines with
      | some n => "lines:" ++ Nat.repr n ++ "\n"
      | none => "")
    ++ (match r.region_anchor with
      | some a => "regionanchor:" ++ a.render ++ "\n"
      | none => "")
    ++ (match r.viewport_anchor with
      | some a => "viewportanchor:" ++ a.render ++ "\n"
      | none => "")
    ++ (match r.scroll with
      | some s => "scroll:" ++ s.render ++ "\n"
      | none => "")

/-- `VttBlock` from `vtt.rs`: the tagged union of the four block kinds. -/
inductive VttBlock where
  | Que (cue : VttCue)
  | Comment (comment : VttComment)
  | Style (style : VttStyle)
  | Region (region : VttRegion)
deriving DecidableEq

/-- `impl Display for VttBlock`: delegate to the wrapped block. -/
def VttBlock.render : VttBlock → String
  | .Que q => q.render
  | .Comment c => c.render
  | .Style s => s.render
  | .Region r => r.render

/-- `VttDescription` from `vtt.rs`: header description placement. -/
inductive VttDescription where
  | Side (text : String)
  | Below (text : String)
deriving DecidableEq

/-- `impl Display for VttDescription`: a leading space for `Side`, a
leading newline for `Below`. -/
def VttDescription.render : VttDescription → String
  | .Side t => " " ++ t
  | .Below t => "\n" ++ t

/-- `VttHeader` from `vtt.rs`: an optional description. -/
structure VttHeader where
  description : Option VttDescription
deriving DecidableEq

/-- `impl Display for VttHeader`: `WEBVTT`, the description when present,
then a newline. -/
def VttHeader.render (h : VttHeader) : String :=
  match h.description with
  | some d => "WEBVTT" ++ d.render ++ "\n"
  | none => "WEBVTT\n"

/-- `WebVtt` from `vtt.rs`: a header and an ordered block sequence. -/
structure WebVtt where
  header : VttHeader
  blocks : List VttBlock
deriving DecidableEq

/-- `impl Display for WebVtt` (and `WebVtt::render`, which is
`to_string`): the header line plus one newline, then the indexed loop over
the blocks that appends a separating newline after every block except the
last (`i + 1 < length`). -/
def WebVtt.render (v : WebVtt) : String :=
  v.header.render ++ "\n"
    ++ v.blocks.enum.foldl
      (fun acc p =>
        if p.1 + 1 < v.blocks.length then acc ++ p.2.render ++ "\n"
        else acc ++ p.2.render)
      ""

/-- `impl Iterator for WebVtt`: `next` returns `None` on an empty block
sequence, otherwise removes and returns the first block.  The Rust method
mutates `self`; the model returns the successor state alongside the item. -/
def WebVtt.next (v : WebVtt) : Option (VttBlock × WebVtt) :=
  match v.blocks with
  | [] => none
  | b :: rest => some (b, { v with blocks := rest })

/-- Repeated application of `WebVtt.next` until exhaustion, collecting the
yielded blocks.  The fuel argument makes the recursion structural; it is
instantiated with the block count, which `next` strictly decreases. -/
def WebVtt.drainAux : Nat → WebVtt → List VttBlock
  | 0, _ => []
  | fuel + 1, v =>
    match v.next with
    | none => []
    | some (b, v') => b :: WebVtt.drainAux fuel v'

/-- All blocks yielded by draining iteration, in yield order. -/
def WebVtt.drain (v : WebVtt) : List VttBlock :=
  WebVtt.drainAux v.blocks.length v

/-! ## Helper lemmas -/

/-- A string that ends in a newline still does after prepending. -/
theorem endsNl_append (x : String) {y : String} (h : ∃ s, y = s ++ "\n") :
    ∃ s, x ++ y = s ++ "\n" := by
  obtain ⟨s, rfl⟩ := h
  exact ⟨x ++ s, (String.append_assoc x s "\n").symm⟩

/-- Every rendered region block ends in a newline: the last present field
line ends in one, and with no fields present the `REGION` line itself
does. -/
theorem vttRegion_render_endsNl (r : VttRegion) : ∃ s, r.render = s ++ "\n" := by
  obtain ⟨i, w, ln, ra, va, sc⟩ := r
  simp only [VttRegion.render]
  cases sc with
  | some s => exact endsNl_append _ ⟨_, rfl⟩
  | none =>
    simp only [String.append_empty]
    cases va with
    | some a => exact endsNl_append _ ⟨_, rfl⟩
    | none =>
      simp only [String.append_empty]
      cases ra with
      | some a => exact endsNl_append _ ⟨_, rfl⟩
      | none =>
        simp only [String.append_empty]
        cases ln with
        | some n => exact endsNl_append _ ⟨_, rfl⟩
        | none =>
          simp only [String.append_empty]
          cases w with
          | some p => exact endsNl_append _ ⟨_, rfl⟩
          | none =>
            simp only [String.append_empty]
            cases i with
            | some s => exact endsNl_append _ ⟨_, rfl⟩
            | none =>
              simp only [String.append_empty]
              exact ⟨"REGION", rfl⟩

/-- A string of the shape `X ++ "\n" ++ "\n"` ends in two consecutive
newlines. -/
theorem endsTwoNl {x : String} (X : String) (hx : x = X ++ "\n" ++ "\n") :
    ∃ s, x = s ++ "\n\n" := by
  refine ⟨X, ?_⟩
  rw [hx, String.append_assoc]
  rfl

/-- The indexed rendering loop of `WebVtt.render`, started at index `k` on
the remaining suffix of the block list, appends exactly the newline-joined
renders of that suffix: the `i + 1 < length` test adds a separator after
every element except the last. -/
theorem renderLoop_eq (n : Nat) :
    ∀ (rest : List VttBlock) (k : Nat) (acc : String), k + rest.length = n →
      (List.enumFrom k rest).foldl
        (fun a p => if p.1 + 1 < n then a ++ p.2.render ++ "\n" else a ++ p.2.render)
        acc
      = acc ++ joinSep "\n" (rest.map VttBlock.render)
  | [], k, acc, _ => by
    simp [joinSep, List.enumFrom]
  | [x], k, acc, h => by
    have hn : ¬ (k + 1 < n) := by simp at h; omega
    simp [List.enumFrom, joinSep, hn]
  | x :: y :: ys, k, acc, h => by
    have hn : k + 1 < n := by simp at h; omega
    have step : (List.enumFrom k (x :: y :: ys)).foldl
        (fun a p => if p.1 + 1 < n then a ++ p.2.render ++ "\n" else a ++ p.2.render)
        acc
      = (List.enumFrom (k + 1) (y :: ys)).foldl
        (fun a p => if p.1 + 1 < n then a ++ p.2.render ++ "\n" else a ++ p.2.render)
        (if k + 1 < n then acc ++ x.render ++ "\n" else acc ++ x.render) := rfl
    rw [step, if_pos hn,
      renderLoop_eq n (y :: ys) (k + 1) (acc ++ x.render ++ "\n") (by simp at h ⊢; omega)]
    simp [joinSep, String.append_assoc]

/-- With enough fuel, draining yields exactly the block list. -/
theorem drainAux_eq :
    ∀ (n : Nat) (v : WebVtt), v.blocks.length ≤ n → WebVtt.drainAux n v = v.blocks
  | 0, v, h => by
    have hb : v.blocks = [] := List.eq_nil_of_length_eq_zero (Nat.le_zero.mp h)
    simp [WebVtt.drainAux, hb]
  | n + 1, v, h => by
    obtain ⟨hd, bs⟩ := v
    cases bs with
    | nil => simp [WebVtt.drainAux, WebVtt.next]
    | cons b rest =>
      have ih := drainAux_eq n ⟨hd, rest⟩ (by simp at h ⊢; omega)
      simp [WebVtt.drainAux, WebVtt.next, ih]

/-- The push-then-join settings renderer emits exactly the present fields
in declaration order. -/
theorem cueSettings_render_eq (s : CueSettings) :
    s.render = joinSep " " s.presentFields := by
  obtain ⟨v, l, p, sz, a, r⟩ := s
  cases v <;> cases l <;> cases p <;> cases sz <;> cases a <;> cases r <;> rfl

/-! ## Claim theorems -/

/-- Claim C1: rendering a document produces the rendered header plus a
blank-line separator, then the blocks' rendered texts joined by single
newlines — since every block's rendered text itself ends in a newline, this
is exactly a blank line between consecutive blocks and no trailing blank
line after the final block; and a cue renders as the identifier line (if
present), the timing line with a space and the settings (if present), then
the newline-joined payload with a terminating newline. -/
theorem C1_render_structure :
    (∀ v : WebVtt,
      v.render = v.header.render ++ "\n" ++ joinSep "\n" (v.blocks.map VttBlock.render))
    ∧ (∀ b : VttBlock, ∃ s, b.render = s ++ "\n")
    ∧ ∀ c : VttCue,
        c.render =
          (match c.identifier with
            | some i => i ++ "\n"
            | none => "")
            ++ c.timings.render
            ++ (match c.settings with
              | some s => " " ++ s.render
              | none => "")
            ++ "\n" ++ joinSep "\n" c.payload ++ "\n" := by
  refine ⟨?_, ?_, fun c => rfl⟩
  · intro v
    unfold WebVtt.render
    rw [show v.blocks.enum = List.enumFrom 0 v.blocks from rfl]
    rw [renderLoop_eq v.blocks.length v.blocks 0 "" (by simp)]
    rw [String.empty_append]
  · intro b
    cases b with
    | Que q => exact ⟨_, rfl⟩
    | Comment c =>
      cases c with
      | Side t => exact ⟨_, rfl⟩
      | Below t => exact ⟨_, rfl⟩
    | Style s => exact ⟨_, rfl⟩
    | Region r => exact vttRegion_render_endsNl r

/-- Claim C2: settings rendering emits exactly the present fields, joined
by single spaces, always in the fixed order vertical, line, position, size,
align, region; in particular a settings value with both region and vertical
set renders vertical first. -/
theorem C2_settings_fixed_order :
    (∀ s : CueSettings, s.render = joinSep " " s.presentFields)
    ∧ ∀ (v : Vertical) (r : String),
        CueSettings.render ⟨some v, none, none, none, none, some r⟩
          = "vertical:" ++ v.render ++ " " ++ ("region:" ++ r) := by
  refine ⟨cueSettings_render_eq, ?_⟩
  intro v r
  cases v <;> rfl

/-- Claim C6: a timestamp renders in the zero-padded `HH:MM:SS.mmm` form —
each field in decimal, left-padded with zeros to width two (three for
milliseconds) whenever the numeral is shorter — and a timing pair renders
as the start timestamp, the literal ` --> `, then the end timestamp. -/
theorem C6_timestamp_format :
    (∀ t : VttTimestamp,
      t.render
        = padZero 2 (Nat.repr t.hours) ++ ":" ++ padZero 2 (Nat.repr t.minutes)
          ++ ":" ++ padZero 2 (Nat.repr t.seconds)
          ++ "." ++ padZero 3 (Nat.repr t.milliseconds))
    ∧ (∀ n, n < 100 → (padZero 2 (Nat.repr n)).length = 2)
    ∧ (∀ n, n < 1000 → (padZero 3 (Nat.repr n)).length = 3)
    ∧ (∀ g : VttTimings, g.render = g.start.render ++ " --> " ++ g.«end».render)
    ∧ VttTimestamp.render ⟨0, 0, 1, 0⟩ = "00:00:01.000" := by
  refine ⟨fun t => rfl, by decide, ?_, fun g => rfl, by decide⟩
  set_option maxRecDepth 40000 in decide

/-- Claim C6, witnessed: padding applies at a concrete short numeral. -/
theorem C6_witness : (padZero 2 (Nat.repr 5)).length = 2 :=
  C6_timestamp_format.2.1 5 (by decide)

/-- Claim C7: the three header description placements render distinctly — a
side description on the marker line after a space, a below description on
the following line, and an absent description as the bare marker line. -/
theorem C7_header_render :
    (∀ t, VttHeader.render ⟨some (VttDescription.Side t)⟩ = "WEBVTT " ++ t ++ "\n")
    ∧ (∀ t, VttHeader.render ⟨some (VttDescription.Below t)⟩ = "WEBVTT\n" ++ t ++ "\n")
    ∧ VttHeader.render ⟨none⟩ = "WEBVTT\n" :=
  ⟨fun _ => rfl, fun _ => rfl, rfl⟩

/-- Claim C4, as stated, is false: the timestamp fields are not clamped, so
minutes = 70 becomes 4200 seconds on the way out and comes back as
1 hour 10 minutes. -/
theorem C4_counterexample :
    VttTimestamp.fromDuration (VttTimestamp.intoDuration ⟨0, 70, 0, 0⟩) ≠ ⟨0, 70, 0, 0⟩ := by
  decide

/-- Claim C4, amended: for every timestamp whose minutes and seconds are at
most 59 and whose milliseconds are at most 999 (hours being any `u32`
value), converting to a duration and back yields the identical timestamp;
conversely for every normalized duration whose second count stays inside
the hour range of `u32`, converting to a timestamp and back loses exactly
the sub-millisecond part of the nanoseconds; and 1 second 500 milliseconds
converts to the duration 1.5 s and back to the identical timestamp. -/
theorem C4_roundtrip_amended :
    (∀ t : VttTimestamp,
      t.hours < 4294967296 → t.minutes ≤ 59 → t.seconds ≤ 59 → t.milliseconds ≤ 999 →
        VttTimestamp.fromDuration t.intoDuration = t)
    ∧ (∀ d : Duration, d.nanos < 1000000000 → d.secs < 15461882265600 →
        (VttTimestamp.fromDuration d).intoDuration = ⟨d.secs, d.nanos / 1000000 * 1000000⟩)
    ∧ VttTimestamp.intoDuration ⟨0, 0, 1, 500⟩ = ⟨1, 500000000⟩
    ∧ VttTimestamp.fromDuration ⟨1, 500000000⟩ = ⟨0, 0, 1, 500⟩ := by
  refine ⟨?_, ?_, by decide, by decide⟩
  · intro t h1 h2 h3 h4
    obtain ⟨h, m, s, ms⟩ := t
    simp only [VttTimestamp.intoDuration, VttTimestamp.fromDuration, Duration.new,
      VttTimestamp.mk.injEq] at h1 h2 h3 h4 ⊢
    refine ⟨?_, ?_, ?_, ?_⟩ <;> omega
  · intro d h1 h2
    obtain ⟨s, n⟩ := d
    simp only [VttTimestamp.intoDuration, VttTimestamp.fromDuration, Duration.new,
      Duration.mk.injEq] at h1 h2 ⊢
    refine ⟨?_, ?_⟩ <;> omega

/-- Claim C4, witnessed: the round trip at 1 h 2 min 3 s 4 ms. -/
theorem C4_witness :
    VttTimestamp.fromDuration (VttTimestamp.intoDuration ⟨1, 2, 3, 4⟩) = ⟨1, 2, 3, 4⟩ :=
  C4_roundtrip_amended.1 ⟨1, 2, 3, 4⟩ (by decide) (by decide) (by decide) (by decide)

/-- Claim C5: the derived timestamp order is lexicographic over (hours,
minutes, seconds, milliseconds), and whenever both operands keep minutes
and seconds at most 59 and milliseconds at most 999 it agrees with the
derived order on the converted durations; in particular `00:00:01.000`
compares less than `00:00:04.000`. -/
theorem C5_order_agrees :
    (∀ a b : VttTimestamp,
      a.minutes ≤ 59 → a.seconds ≤ 59 → a.milliseconds ≤ 999 →
      b.minutes ≤ 59 → b.seconds ≤ 59 → b.milliseconds ≤ 999 →
        (a.lt b ↔ a.intoDuration.lt b.intoDuration))
    ∧ VttTimestamp.lt ⟨0, 0, 1, 0⟩ ⟨0, 0, 4, 0⟩ := by
  constructor
  · intro a b ha1 ha2 ha3 hb1 hb2 hb3
    obtain ⟨h1, m1, s1, x1⟩ := a
    obtain ⟨h2, m2, s2, x2⟩ := b
    simp only [VttTimestamp.lt, VttTimestamp.intoDuration, Duration.new, Duration.lt]
      at ha1 ha2 ha3 hb1 hb2 hb3 ⊢
    omega
  · simp only [VttTimestamp.lt]
    decide

/-- Claim C5, witnessed at the pair from the spec's example. -/
theorem C5_witness :
    VttTimestamp.lt ⟨0, 0, 1, 0⟩ ⟨0, 0, 4, 0⟩
      ↔ (VttTimestamp.intoDuration ⟨0, 0, 1, 0⟩).lt (VttTimestamp.intoDuration ⟨0, 0, 4, 0⟩) :=
  C5_order_agrees.1 ⟨0, 0, 1, 0⟩ ⟨0, 0, 4, 0⟩ (by decide) (by decide) (by decide)
    (by decide) (by decide) (by decide)

/-- Claim C8: draining iteration removes and yields the first block on each
step — `next` is `none` exactly on an empty block sequence, a successful
step splits off the head and leaves the header unchanged, and repeated
draining yields the blocks in document order. -/
theorem C8_draining_iteration :
    (∀ v : WebVtt, v.next = none ↔ v.blocks = [])
    ∧ (∀ (v v' : WebVtt) (b : VttBlock), v.next = some (b, v') →
        v.blocks = b :: v'.blocks ∧ v'.header = v.header)
    ∧ (∀ v : WebVtt, v.drain = v.blocks) := by
  refine ⟨?_, ?_, ?_⟩
  · intro v
    obtain ⟨hd, bs⟩ := v
    cases bs <;> simp [WebVtt.next]
  · intro v v' b hnext
    obtain ⟨hd, bs⟩ := v
    cases bs with
    | nil => simp [WebVtt.next] at hnext
    | cons x xs =>
      simp only [WebVtt.next, Option.some.injEq, Prod.mk.injEq] at hnext
      obtain ⟨rfl, rfl⟩ := hnext
      exact ⟨rfl, rfl⟩
  · intro v
    exact drainAux_eq v.blocks.length v (Nat.le_refl _)

/-- Claim C8, witnessed: one step on a one-block document. -/
theorem C8_witness :
    (WebVtt.mk ⟨none⟩ [VttBlock.Style ⟨"s"⟩]).blocks
        = VttBlock.Style ⟨"s"⟩ :: (WebVtt.mk ⟨none⟩ []).blocks
      ∧ (WebVtt.mk ⟨none⟩ []).header = (WebVtt.mk ⟨none⟩ [VttBlock.Style ⟨"s"⟩]).header :=
  C8_draining_iteration.2.1 ⟨⟨none⟩, [VttBlock.Style ⟨"s"⟩]⟩ ⟨⟨none⟩, []⟩
    (VttBlock.Style ⟨"s"⟩) rfl

/-- Claim C9: rendering is a total function on the whole data model — every
rendered document is the `WEBVTT` marker followed by some remainder, and it
evaluates to a concrete string even on the degenerate values the model can
represent: an empty block sequence, a cue with an empty payload and an
out-of-range timestamp field, and an out-of-range percentage. -/
theorem C9_render_total :
    (∀ v : WebVtt, ∃ rest, v.render = "WEBVTT" ++ rest)
    ∧ WebVtt.render ⟨⟨none⟩, []⟩ = "WEBVTT\n\n"
    ∧ WebVtt.render ⟨⟨none⟩, [VttBlock.Que ⟨none, ⟨⟨0, 200, 0, 0⟩, ⟨0, 0, 0, 0⟩⟩, none, []⟩]⟩
        = "WEBVTT\n\n00:200:00.000 --> 00:00:00.000\n\n"
    ∧ WebVtt.render ⟨⟨none⟩, [VttBlock.Region ⟨none, some ⟨mkRat 301 2⟩, none, none, none, none⟩]⟩
        = "WEBVTT\n\nREGION\nwidth:150.5%\n" := by
  refine ⟨?_, by decide, by decide, by decide⟩
  intro v
  rcases v with ⟨⟨d⟩, bs⟩
  have hh : ∃ s, VttHeader.render ⟨d⟩ = "WEBVTT" ++ s := by
    cases d with
    | none => exact ⟨"\n", rfl⟩
    | some dd =>
      cases dd with
      | Side t =>
        exact ⟨" " ++ t ++ "\n",
          by simp [VttHeader.render, VttDescription.render, String.append_assoc]⟩
      | Below t =>
        exact ⟨"\n" ++ t ++ "\n",
          by simp [VttHeader.render, VttDescription.render, String.append_assoc]⟩
  obtain ⟨s, hs⟩ := hh
  simp only [WebVtt.render]
  rw [hs]
  simp only [String.append_assoc]
  exact ⟨_, rfl⟩

/-- Claim C10: a cue with an empty payload renders as its optional
identifier line and its timing line (with optional settings) followed by
two consecutive newlines, so the rendered block contains a blank line. -/
theorem C10_empty_payload (c : VttCue) (h : c.payload = []) :
    c.render =
      (match c.identifier with
        | some i => i ++ "\n"
        | none => "")
        ++ c.timings.render
        ++ (match c.settings with
          | some s => " " ++ s.render
          | none => "")
        ++ "\n" ++ "\n"
    ∧ ∃ s, c.render = s ++ "\n\n" := by
  obtain ⟨i, g, st, p⟩ := c
  cases p with
  | cons a as => simp at h
  | nil =>
    clear h
    have h1 : VttCue.render ⟨i, g, st, []⟩ =
        (match i with
          | some x => x ++ "\n"
          | none => "")
          ++ g.render
          ++ (match st with
            | some s => " " ++ s.render
            | none => "")
          ++ "\n" ++ "\n" := by
      simp only [VttCue.render, joinSep, String.append_empty]
    exact ⟨h1, endsTwoNl _ h1⟩

/-- Claim C10, witnessed on a bare empty cue. -/
theorem C10_witness :
    VttCue.render ⟨none, ⟨⟨0, 0, 0, 0⟩, ⟨0, 0, 0, 0⟩⟩, none, []⟩
      = "00:00:00.000 --> 00:00:00.000\n\n" :=
  ((C10_empty_payload ⟨none, ⟨⟨0, 0, 0, 0⟩, ⟨0, 0, 0, 0⟩⟩, none, []⟩ rfl).1).trans (by decide)
